import Mathlib

/-
Verification of the game-analysis core of ChessBlunderAnalysis
(src/analyze_and_parse_games.py, function analyze_game, lines 13-70).

The embedding is parametric in the board type B and move type M:
board.push and engine.analyse are external calls that may raise, so they
are modelled as functions returning Except.  Everything else -- the
threshold constants, the if/elif classification chain, the
UnboundLocalError-based seeding of old_score, the move-number formula,
the accumulation lists, engine.quit and the final return -- is
translated line by line from the source.
-/

namespace ChessBlunder

/-- Exceptions that can flow through analyze_game: an illegal move
raised while applying a move, a failure of the evaluation engine, and
Python's UnboundLocalError (raised at line 70 when move_num was never
assigned, i.e. the game had zero plies). -/
inductive ChessError where
  | illegalMove
  | evaluationFailure
  | unboundLocal
deriving DecidableEq, Repr

/-- Embeds `mistake = 100` (line 28). -/
def mistake : Int := 100

/-- Embeds `blunder = 300` (line 29). -/
def blunder : Int := 300

/-- The five possible outcomes of the classification chain at lines
57-64: one of the four appends, or falling through with no append. -/
inductive DeltaEvent where
  | blackBlunder
  | blackMistake
  | whiteBlunder
  | whiteMistake
  | noEvent
deriving DecidableEq, Repr

/-- Embeds the if/elif chain at lines 57-64:
`if score - old_score >= blunder: black_blunders.append(...)`
`elif score - old_score >= mistake: black_mistakes.append(...)`
`elif score - old_score <= 0 - blunder: white_blunders.append(...)`
`elif score - old_score <= 0 - mistake: white_mistakes.append(...)`. -/
def classify (old_score score : Int) : DeltaEvent :=
  if score - old_score ≥ blunder then .blackBlunder
  else if score - old_score ≥ mistake then .blackMistake
  else if score - old_score ≤ 0 - blunder then .whiteBlunder
  else if score - old_score ≤ 0 - mistake then .whiteMistake
  else .noEvent

/-- Embeds `move_num = int(math.ceil(combined_move_num / 2))` (line 53).
For a natural number p, ceil(p / 2) = (p + 1) / 2 in integer division. -/
def moveNumOfPly (p : Nat) : Nat := (p + 1) / 2

/-- The local state of analyze_game's loop: the board, the `score`
variable (None while still unassigned, which is what the
try/except UnboundLocalError at lines 48-51 tests), the running
1-based ply counter `combined_move_num` (line 38), the four event
lists (lines 39-42) and the `move_num` variable (None while still
unassigned, which is what makes line 70 raise on a zero-ply game). -/
structure AnalyzeState (B : Type) where
  board : B
  score : Option Int
  combined_move_num : Nat
  white_mistakes : List Nat
  white_blunders : List Nat
  black_mistakes : List Nat
  black_blunders : List Nat
  move_num : Option Nat

/-- Embeds lines 31 and 38-42: fresh board, unassigned score,
combined_move_num = 1, four empty lists, unassigned move_num. -/
def initState {B : Type} (b : B) : AnalyzeState B :=
  ⟨b, none, 1, [], [], [], [], none⟩

/-- Performs the append chosen by the classification chain
(lines 58, 60, 62, 64), or nothing on fall-through. -/
def appendEvent {B : Type} (e : DeltaEvent) (mn : Nat) (s : AnalyzeState B) :
    AnalyzeState B :=
  match e with
  | .blackBlunder => { s with black_blunders := s.black_blunders ++ [mn] }
  | .blackMistake => { s with black_mistakes := s.black_mistakes ++ [mn] }
  | .whiteBlunder => { s with white_blunders := s.white_blunders ++ [mn] }
  | .whiteMistake => { s with white_mistakes := s.white_mistakes ++ [mn] }
  | .noEvent => s

/-- One iteration of the `for move in game.mainline_moves()` loop
(lines 44-66): push the move (may raise), evaluate the new position
(may raise), recover old_score from the previous iteration's `score`
or seed it with the current evaluation on UnboundLocalError
(lines 48-51), compute move_num (line 53), assign `score` (line 55),
classify and append (lines 57-64), increment combined_move_num
(line 66). -/
def analyzePly {B M : Type} (push : B → M → Except ChessError B)
    (analyse : B → Except ChessError Int)
    (s : AnalyzeState B) (move : M) : Except ChessError (AnalyzeState B) :=
  match push s.board move with
  | .error e => .error e
  | .ok board =>
    match analyse board with
    | .error e => .error e
    | .ok info =>
      let old_score := s.score.getD info
      let move_num := moveNumOfPly s.combined_move_num
      let s1 : AnalyzeState B :=
        { s with board := board, score := some info,
                 move_num := some move_num,
                 combined_move_num := s.combined_move_num + 1 }
      .ok (appendEvent (classify old_score info) move_num s1)

/-- The whole loop at lines 44-66, threading the state through the
move list; the first raised exception propagates (there is no handler
in the loop other than the UnboundLocalError one already embedded in
analyzePly). -/
def analyzeLoop {B M : Type} (push : B → M → Except ChessError B)
    (analyse : B → Except ChessError Int) :
    AnalyzeState B → List M → Except ChessError (AnalyzeState B)
  | s, [] => .ok s
  | s, m :: ms =>
    match analyzePly push analyse s m with
    | .error e => .error e
    | .ok s1 => analyzeLoop push analyse s1 ms

/-- The tuple returned at line 70. -/
structure GameAnnotationResult where
  white_mistakes : List Nat
  white_blunders : List Nat
  black_mistakes : List Nat
  black_blunders : List Nat
  move_num : Nat
deriving DecidableEq, Repr

/-- The observable outcome of one call to analyze_game: the returned
tuple or the propagated exception, together with how many times
`await engine.quit()` (line 68) was executed on that path. -/
structure AnalyzeOutcome where
  result : Except ChessError GameAnnotationResult
  engineQuitCount : Nat

/-- Embeds analyze_game (lines 13-70).  The loop runs over the moves;
if it raises, the exception propagates before line 68 is reached, so
engine.quit is not executed on that path.  If the loop completes,
engine.quit runs (line 68) and then line 70 returns the four lists and
move_num -- raising UnboundLocalError instead when move_num was never
assigned, i.e. when the game had zero plies. -/
def analyze_game {B M : Type} (push : B → M → Except ChessError B)
    (analyse : B → Except ChessError Int)
    (b0 : B) (moves : List M) : AnalyzeOutcome :=
  match analyzeLoop push analyse (initState b0) moves with
  | .error e => ⟨.error e, 0⟩
  | .ok s =>
    match s.move_num with
    | some mn =>
      ⟨.ok ⟨s.white_mistakes, s.white_blunders, s.black_mistakes,
            s.black_blunders, mn⟩, 1⟩
    | none => ⟨.error .unboundLocal, 1⟩

/-- Total number of recorded events in a loop state. -/
def stateEventCount {B : Type} (s : AnalyzeState B) : Nat :=
  s.white_mistakes.length + s.white_blunders.length +
    s.black_mistakes.length + s.black_blunders.length

/-- All recorded move numbers of a loop state, as one list. -/
def allEvents {B : Type} (s : AnalyzeState B) : List Nat :=
  s.white_mistakes ++ s.white_blunders ++ s.black_mistakes ++ s.black_blunders

/-- Move application used for concrete runs: the board records how many
plies have been played, every push succeeds and increments it. -/
def countPush : Nat → Unit → Except ChessError Nat := fun b _ => .ok (b + 1)

/-- Oracle returning 0 at every position. -/
def zeroAnalyse : Nat → Except ChessError Int := fun _ => .ok 0

/-- Oracle returning an extreme evaluation at every position. -/
def extremeAnalyse : Nat → Except ChessError Int := fun _ => .ok 100000

/-- The oracle evaluation sequence of the spec's 5-ply scenario. -/
def scenarioEvals : List Int := [20, 20, -310, -310, -50]

/-- Oracle for the 5-ply scenario: with countPush the board after ply p
is p, and the oracle returns the p-th scenario evaluation. -/
def scenarioAnalyse : Nat → Except ChessError Int :=
  fun b => .ok (scenarioEvals.getD (b - 1) 0)

/-- Oracle that fails at ply 4 (board value 4 under countPush) and
returns 0 elsewhere. -/
def failAt4Analyse : Nat → Except ChessError Int :=
  fun b => if b = 4 then .error .evaluationFailure else .ok 0

/-- Move application that raises an illegal-move error on the third
push (board value 2) and succeeds elsewhere. -/
def illegalAt3Push : Nat → Unit → Except ChessError Nat :=
  fun b _ => if b = 2 then .error .illegalMove else .ok (b + 1)

/-- Loop state after one successful ply of countPush/zeroAnalyse from
the initial state. -/
def plyState1 : AnalyzeState Nat := ⟨1, some 0, 2, [], [], [], [], some 1⟩

/-- Loop state after two successful plies of illegalAt3Push/zeroAnalyse
from the initial state. -/
def plyState2 : AnalyzeState Nat := ⟨2, some 0, 3, [], [], [], [], some 1⟩

/-- A zero evaluation delta falls through the whole if/elif chain. -/
theorem classify_self (v : Int) : classify v v = .noEvent := by
  unfold classify mistake blunder
  norm_num

/-- C1: with the default thresholds 100 and 300 the classifier realizes
exactly the five-way priority split on the delta: black blunder iff
delta >= 300, else black mistake iff delta >= 100, else white blunder
iff delta <= -300, else white mistake iff delta <= -100, else no
event; in particular delta 300 is a blunder, delta 100 a mistake and
delta 99 no event. -/
theorem classify_five_way_priority (prev cur : Int) :
    (classify prev cur = .blackBlunder ↔ cur - prev ≥ 300) ∧
    (classify prev cur = .blackMistake ↔ (cur - prev ≥ 100 ∧ cur - prev < 300)) ∧
    (classify prev cur = .whiteBlunder ↔ cur - prev ≤ -300) ∧
    (classify prev cur = .whiteMistake ↔ (cur - prev ≤ -100 ∧ -300 < cur - prev)) ∧
    (classify prev cur = .noEvent ↔ (-100 < cur - prev ∧ cur - prev < 100)) ∧
    classify prev (prev + 300) = .blackBlunder ∧
    classify prev (prev + 100) = .blackMistake ∧
    classify prev (prev + 99) = .noEvent := by
  refine ⟨?_, ?_, ?_, ?_, ?_, ?_, ?_, ?_⟩ <;>
    (unfold classify mistake blunder; split_ifs <;> simp_all <;> omega)

/-- C3: on the first ply the evaluation only seeds the previous score,
so the delta is 0 and no event is recorded: a single-move game returns
four empty event lists (and move number 1) for any evaluation the
oracle returns, however extreme. -/
theorem first_ply_never_classifies {B M : Type}
    (push : B → M → Except ChessError B) (analyse : B → Except ChessError Int)
    (b0 b1 : B) (m : M) (v : Int)
    (hp : push b0 m = .ok b1) (ha : analyse b1 = .ok v) :
    analyze_game push analyse b0 [m] = ⟨.ok ⟨[], [], [], [], 1⟩, 1⟩ := by
  have h1 : analyzePly push analyse (initState b0) m =
      .ok ⟨b1, some v, 2, [], [], [], [], some 1⟩ := by
    unfold analyzePly initState
    simp only [hp, ha, Option.getD, classify_self, appendEvent, moveNumOfPly]
  unfold analyze_game analyzeLoop
  rw [h1]
  rfl

/-- Witness for C3 at a concrete pathological oracle. -/
theorem first_ply_never_classifies_witness :
    analyze_game countPush extremeAnalyse 0 [()] = ⟨.ok ⟨[], [], [], [], 1⟩, 1⟩ :=
  first_ply_never_classifies countPush extremeAnalyse 0 1 () 100000 rfl rfl

/-- C4: the 5-ply scenario with oracle evaluations
[20, 20, -310, -310, -50] yields exactly a white blunder at move
number 2 (ply 3, delta -330) and a black mistake at move number 3
(ply 5, delta 260), with total move count 3. -/
theorem scenario_five_ply_events :
    analyze_game countPush scenarioAnalyse 0 [(), (), (), (), ()] =
      ⟨.ok ⟨[], [2], [3], [], 3⟩, 1⟩ := rfl

/-- C7: a game with zero plies does not return a degenerate move
number; the loop never assigns move_num, so the return statement at
line 70 raises UnboundLocalError (after engine.quit has run). -/
theorem empty_game_raises_unbound_local {B M : Type}
    (push : B → M → Except ChessError B) (analyse : B → Except ChessError Int)
    (b0 : B) :
    analyze_game push analyse b0 ([] : List M) = ⟨.error .unboundLocal, 1⟩ := rfl

/-- Counterexample for C8: with an oracle failure injected at ply 4 of
a 6-ply game the analysis aborts with an evaluation failure but
engine.quit is executed zero times, not once -- the session leaks. -/
theorem oracle_failure_session_not_closed :
    (analyze_game countPush failAt4Analyse 0 [(), (), (), (), (), ()]).engineQuitCount = 0 ∧
    (analyze_game countPush failAt4Analyse 0 [(), (), (), (), (), ()]).result =
      .error .evaluationFailure := ⟨rfl, rfl⟩

/-- C8 amended: engine.quit runs exactly once when the ply loop
completes (including the zero-ply path) and zero times when a move
application or evaluation failure aborts the loop, on which paths the
oracle session is leaked. -/
theorem engine_quit_only_when_loop_completes {B M : Type}
    (push : B → M → Except ChessError B) (analyse : B → Except ChessError Int)
    (b0 : B) (moves : List M) :
    (analyze_game push analyse b0 moves).engineQuitCount =
      match analyzeLoop push analyse (initState b0) moves with
      | .ok _ => 1
      | .error _ => 0 := by
  unfold analyze_game
  cases analyzeLoop push analyse (initState b0) moves with
  | error e => rfl
  | ok s =>
    obtain ⟨b, sc, cmn, wm, wb, bm, bb, mn⟩ := s
    cases mn <;> rfl

/-- Inversion of one successful loop iteration: the push and the
evaluation succeeded and the new state is the updated-and-appended old
state. -/
theorem analyzePly_ok_inv {B M : Type} (push : B → M → Except ChessError B)
    (analyse : B → Except ChessError Int) (s s' : AnalyzeState B) (m : M)
    (h : analyzePly push analyse s m = .ok s') :
    ∃ b1 v, push s.board m = .ok b1 ∧ analyse b1 = .ok v ∧
      s' = appendEvent (classify (s.score.getD v) v) (moveNumOfPly s.combined_move_num)
        { s with board := b1, score := some v,
                 move_num := some (moveNumOfPly s.combined_move_num),
                 combined_move_num := s.combined_move_num + 1 } := by
  unfold analyzePly at h
  split at h
  · simp at h
  · rename_i b1 hb
    split at h
    · simp at h
    · rename_i v hv
      refine ⟨b1, v, hb, hv, ?_⟩
      injection h with h
      exact h.symm

/-- C2: a successful ply records at most one event, whose move number
is moveNumOfPly of the 1-based ply index; moveNumOfPly is exactly the
ceiling of half the ply index (characterized by the two-sided bound),
and on ply indices 1..10 it takes the values 1,1,2,2,3,3,4,4,5,5. -/
theorem event_move_number_is_ceil_of_ply {B M : Type}
    (push : B → M → Except ChessError B) (analyse : B → Except ChessError Int)
    (s s' : AnalyzeState B) (m : M)
    (h : analyzePly push analyse s m = .ok s') :
    (s'.white_mistakes = s.white_mistakes ∨
      s'.white_mistakes = s.white_mistakes ++ [moveNumOfPly s.combined_move_num]) ∧
    (s'.white_blunders = s.white_blunders ∨
      s'.white_blunders = s.white_blunders ++ [moveNumOfPly s.combined_move_num]) ∧
    (s'.black_mistakes = s.black_mistakes ∨
      s'.black_mistakes = s.black_mistakes ++ [moveNumOfPly s.combined_move_num]) ∧
    (s'.black_blunders = s.black_blunders ∨
      s'.black_blunders = s.black_blunders ++ [moveNumOfPly s.combined_move_num]) ∧
    s'.move_num = some (moveNumOfPly s.combined_move_num) ∧
    (∀ p : Nat, p ≤ 2 * moveNumOfPly p ∧ 2 * moveNumOfPly p ≤ p + 1) ∧
    (List.range 10).map (fun i => moveNumOfPly (i + 1)) =
      [1, 1, 2, 2, 3, 3, 4, 4, 5, 5] := by
  obtain ⟨b1, v, hb, hv, hs⟩ := analyzePly_ok_inv push analyse s s' m h
  subst hs
  have harith : ∀ p : Nat, p ≤ 2 * moveNumOfPly p ∧ 2 * moveNumOfPly p ≤ p + 1 := by
    intro p
    unfold moveNumOfPly
    omega
  cases hc : classify (s.score.getD v) v <;>
    refine ⟨?_, ?_, ?_, ?_, ?_, harith, by decide⟩ <;>
    simp [appendEvent]

/-- Witness for C2 at a concrete successful ply. -/
theorem event_move_number_is_ceil_of_ply_witness :
    (plyState1.white_mistakes = (initState 0).white_mistakes ∨
      plyState1.white_mistakes =
        (initState 0).white_mistakes ++ [moveNumOfPly (initState 0).combined_move_num]) ∧
    (plyState1.white_blunders = (initState 0).white_blunders ∨
      plyState1.white_blunders =
        (initState 0).white_blunders ++ [moveNumOfPly (initState 0).combined_move_num]) ∧
    (plyState1.black_mistakes = (initState 0).black_mistakes ∨
      plyState1.black_mistakes =
        (initState 0).black_mistakes ++ [moveNumOfPly (initState 0).combined_move_num]) ∧
    (plyState1.black_blunders = (initState 0).black_blunders ∨
      plyState1.black_blunders =
        (initState 0).black_blunders ++ [moveNumOfPly (initState 0).combined_move_num]) ∧
    plyState1.move_num = some (moveNumOfPly (initState 0).combined_move_num) ∧
    (∀ p : Nat, p ≤ 2 * moveNumOfPly p ∧ 2 * moveNumOfPly p ≤ p + 1) ∧
    (List.range 10).map (fun i => moveNumOfPly (i + 1)) =
      [1, 1, 2, 2, 3, 3, 4, 4, 5, 5] :=
  event_move_number_is_ceil_of_ply countPush zeroAnalyse (initState 0) plyState1 () rfl

/-- Inversion of a successful analyze_game call: the loop completed in
some state whose fields are the returned lists and move number. -/
theorem analyze_game_ok_inv {B M : Type} (push : B → M → Except ChessError B)
    (analyse : B → Except ChessError Int) (b0 : B) (moves : List M)
    (r : GameAnnotationResult)
    (h : (analyze_game push analyse b0 moves).result = .ok r) :
    ∃ s : AnalyzeState B, analyzeLoop push analyse (initState b0) moves = .ok s ∧
      s.move_num = some r.move_num ∧
      r.white_mistakes = s.white_mistakes ∧ r.white_blunders = s.white_blunders ∧
      r.black_mistakes = s.black_mistakes ∧ r.black_blunders = s.black_blunders := by
  unfold analyze_game at h
  split at h
  · simp at h
  · rename_i s hs
    refine ⟨s, hs, ?_⟩
    split at h
    · rename_i mn hmn
      have h2 : Except.ok (⟨s.white_mistakes, s.white_blunders, s.black_mistakes,
          s.black_blunders, mn⟩ : GameAnnotationResult) = Except.ok r := h
      injection h2 with h2
      subst h2
      exact ⟨hmn, rfl, rfl, rfl, rfl⟩
    · simp at h

/-- An append changes the event count by at most one. -/
theorem stateEventCount_appendEvent {B : Type} (e : DeltaEvent) (mn : Nat)
    (s : AnalyzeState B) :
    stateEventCount (appendEvent e mn s) ≤ stateEventCount s + 1 := by
  cases e <;> simp [appendEvent, stateEventCount] <;> omega

/-- A successful ply adds at most one event, and adds none when the
`score` variable is still unassigned (the first ply). -/
theorem analyzePly_count {B M : Type} (push : B → M → Except ChessError B)
    (analyse : B → Except ChessError Int) (s s' : AnalyzeState B) (m : M)
    (h : analyzePly push analyse s m = .ok s') :
    stateEventCount s' ≤ stateEventCount s + 1 ∧
    (s.score = none → stateEventCount s' = stateEventCount s) := by
  obtain ⟨b1, v, hb, hv, hs⟩ := analyzePly_ok_inv push analyse s s' m h
  subst hs
  constructor
  · exact le_trans (stateEventCount_appendEvent _ _ _) (by simp [stateEventCount])
  · intro hnone
    rw [hnone]
    simp [classify_self, appendEvent, stateEventCount]

/-- Over a completed loop, the event count grows by at most the number
of plies processed. -/
theorem analyzeLoop_count {B M : Type} (push : B → M → Except ChessError B)
    (analyse : B → Except ChessError Int) (ms : List M) (s s' : AnalyzeState B)
    (h : analyzeLoop push analyse s ms = .ok s') :
    stateEventCount s' ≤ stateEventCount s + ms.length := by
  induction ms generalizing s with
  | nil =>
    unfold analyzeLoop at h
    injection h with h
    subst h
    simp
  | cons m tail ih =>
    unfold analyzeLoop at h
    split at h
    · simp at h
    · rename_i s1 h1
      have := (analyzePly_count push analyse s s1 m h1).1
      have := ih s1 h
      simp only [List.length_cons]
      omega

/-- C5: a completed analysis of a game with at least one ply records
at most total_plies - 1 events over the four lists: each ply appends
to at most one list and the first ply appends to none. -/
theorem event_total_at_most_plies_minus_one {B M : Type}
    (push : B → M → Except ChessError B) (analyse : B → Except ChessError Int)
    (b0 : B) (moves : List M) (r : GameAnnotationResult)
    (hn : 1 ≤ moves.length)
    (h : (analyze_game push analyse b0 moves).result = .ok r) :
    r.white_mistakes.length + r.white_blunders.length +
      r.black_mistakes.length + r.black_blunders.length ≤ moves.length - 1 := by
  obtain ⟨s, hl, hm, hw1, hw2, hb1, hb2⟩ := analyze_game_ok_inv push analyse b0 moves r h
  cases moves with
  | nil => simp at hn
  | cons m tail =>
    unfold analyzeLoop at hl
    split at hl
    · simp at hl
    · rename_i s1 h1
      have hfirst : stateEventCount s1 = stateEventCount (initState b0) :=
        (analyzePly_count push analyse (initState b0) s1 m h1).2 rfl
      have hrest := analyzeLoop_count push analyse tail s1 s hl
      have hcount : stateEventCount s ≤ tail.length := by
        have hzero : stateEventCount (initState b0) = 0 := rfl
        omega
      rw [hw1, hw2, hb1, hb2]
      unfold stateEventCount at hcount
      simp only [List.length_cons]
      omega

/-- Witness for C5 on the concrete 5-ply scenario. -/
theorem event_total_witness :
    (⟨[], [2], [3], [], 3⟩ : GameAnnotationResult).white_mistakes.length +
      (⟨[], [2], [3], [], 3⟩ : GameAnnotationResult).white_blunders.length +
      (⟨[], [2], [3], [], 3⟩ : GameAnnotationResult).black_mistakes.length +
      (⟨[], [2], [3], [], 3⟩ : GameAnnotationResult).black_blunders.length ≤
      ([(), (), (), (), ()] : List Unit).length - 1 :=
  event_total_at_most_plies_minus_one countPush scenarioAnalyse 0
    [(), (), (), (), ()] ⟨[], [2], [3], [], 3⟩ (by norm_num) rfl

/-- Unfolding equation of the loop on a nonempty move list. -/
theorem analyzeLoop_cons {B M : Type} (push : B → M → Except ChessError B)
    (analyse : B → Except ChessError Int) (s : AnalyzeState B) (m : M) (ms : List M) :
    analyzeLoop push analyse s (m :: ms) =
      match analyzePly push analyse s m with
      | .error e => .error e
      | .ok s1 => analyzeLoop push analyse s1 ms := rfl

/-- Splitting the loop at a list append: the tail runs only if the
prefix completed. -/
theorem analyzeLoop_append {B M : Type} (push : B → M → Except ChessError B)
    (analyse : B → Except ChessError Int) (s : AnalyzeState B) (xs ys : List M) :
    analyzeLoop push analyse s (xs ++ ys) =
      match analyzeLoop push analyse s xs with
      | .error e => .error e
      | .ok s1 => analyzeLoop push analyse s1 ys := by
  induction xs generalizing s with
  | nil => rfl
  | cons m ms ih =>
    simp only [List.cons_append, analyzeLoop_cons]
    cases analyzePly push analyse s m with
    | error e => rfl
    | ok s1 => exact ih s1

/-- C9: if applying a move raises an illegal-move error, the error
propagates immediately: the analysis of that game aborts with exactly
that error, and the moves after the failing one are never consulted
(the outcome is identical for every continuation of the move list).
That board.push fails with an IllegalMoveError on an illegal move is
the python-chess collaborator's contract, taken from the spec as the
hypothesis hfail. -/
theorem illegal_move_propagates_immediately {B M : Type}
    (push : B → M → Except ChessError B) (analyse : B → Except ChessError Int)
    (b0 : B) (ms1 ms2 ms2' : List M) (m : M) (s : AnalyzeState B)
    (hpre : analyzeLoop push analyse (initState b0) ms1 = .ok s)
    (hfail : push s.board m = .error .illegalMove) :
    analyze_game push analyse b0 (ms1 ++ m :: ms2) = ⟨.error .illegalMove, 0⟩ ∧
    analyze_game push analyse b0 (ms1 ++ m :: ms2) =
      analyze_game push analyse b0 (ms1 ++ m :: ms2') := by
  have key : ∀ rest : List M,
      analyzeLoop push analyse (initState b0) (ms1 ++ m :: rest) =
        .error .illegalMove := by
    intro rest
    rw [analyzeLoop_append, hpre]
    show analyzeLoop push analyse s (m :: rest) = .error .illegalMove
    unfold analyzeLoop analyzePly
    rw [hfail]
  constructor
  · unfold analyze_game
    rw [key ms2]
  · unfold analyze_game
    rw [key ms2, key ms2']

/-- Witness for C9: the third push fails on a 2-ply prefix; the
outcome is the propagated error and is independent of the tail. -/
theorem illegal_move_witness :
    analyze_game illegalAt3Push zeroAnalyse 0 ([(), ()] ++ () :: [()]) =
      ⟨.error .illegalMove, 0⟩ ∧
    analyze_game illegalAt3Push zeroAnalyse 0 ([(), ()] ++ () :: [()]) =
      analyze_game illegalAt3Push zeroAnalyse 0 ([(), ()] ++ () :: [(), ()]) :=
  illegal_move_propagates_immediately illegalAt3Push zeroAnalyse 0
    [(), ()] [()] [(), ()] () plyState2 rfl rfl

/-- A successful ply advances the ply counter by one, records the move
number derived from the current ply index, and adds at most that move
number to the event lists. -/
theorem analyzePly_events_inv {B M : Type} (push : B → M → Except ChessError B)
    (analyse : B → Except ChessError Int) (s s' : AnalyzeState B) (m : M)
    (h : analyzePly push analyse s m = .ok s') :
    s'.combined_move_num = s.combined_move_num + 1 ∧
    s'.move_num = some (moveNumOfPly s.combined_move_num) ∧
    ∀ x ∈ allEvents s', x ∈ allEvents s ∨ x = moveNumOfPly s.combined_move_num := by
  obtain ⟨b1, v, hb, hv, hs⟩ := analyzePly_ok_inv push analyse s s' m h
  subst hs
  cases hc : classify (s.score.getD v) v <;>
    refine ⟨rfl, rfl, ?_⟩ <;>
    · intro x hx
      simp only [allEvents, appendEvent, List.mem_append, List.mem_singleton] at hx ⊢
      tauto

/-- Over a completed loop from a state with ply counter at least 1,
the counter advances by the number of plies, every new event lies
between 1 and the move number of the last ply, and when at least one
ply was processed the move_num variable holds that last move number. -/
theorem analyzeLoop_events_inv {B M : Type} (push : B → M → Except ChessError B)
    (analyse : B → Except ChessError Int) (ms : List M) (s s' : AnalyzeState B)
    (hcm : 1 ≤ s.combined_move_num)
    (h : analyzeLoop push analyse s ms = .ok s') :
    s'.combined_move_num = s.combined_move_num + ms.length ∧
    (∀ x ∈ allEvents s', x ∈ allEvents s ∨
      (1 ≤ x ∧ x ≤ moveNumOfPly (s.combined_move_num + ms.length - 1))) ∧
    (ms ≠ [] → s'.move_num = some (moveNumOfPly (s.combined_move_num + ms.length - 1))) := by
  induction ms generalizing s with
  | nil =>
    unfold analyzeLoop at h
    injection h with h
    subst h
    exact ⟨rfl, fun x hx => Or.inl hx, fun hne => absurd rfl hne⟩
  | cons m tail ih =>
    rw [analyzeLoop_cons] at h
    split at h
    · simp at h
    · rename_i s1 h1
      obtain ⟨hc1, hm1, he1⟩ := analyzePly_events_inv push analyse s s1 m h1
      have hcm1 : 1 ≤ s1.combined_move_num := by omega
      obtain ⟨hc2, he2, hm2⟩ := ih s1 hcm1 h
      have harith : s1.combined_move_num + tail.length - 1 =
          s.combined_move_num + (m :: tail).length - 1 := by
        simp only [List.length_cons]
        omega
      refine ⟨?_, ?_, ?_⟩
      · simp only [List.length_cons]
        omega
      · intro x hx
        rcases he2 x hx with hx1 | hx1
        · rcases he1 x hx1 with hx2 | hx2
          · exact Or.inl hx2
          · refine Or.inr ?_
            subst hx2
            simp only [moveNumOfPly, List.length_cons]
            omega
        · rw [harith] at hx1
          exact Or.inr hx1
      · intro _
        cases tail with
        | nil =>
          unfold analyzeLoop at h
          injection h with h
          subst h
          have harith2 : s.combined_move_num + (m :: ([] : List M)).length - 1 =
              s.combined_move_num := by simp
          rw [harith2]
          exact hm1
        | cons t ts =>
          have hm3 := hm2 (by simp)
          rw [harith] at hm3
          exact hm3

/-- C10: a completed analysis of a game with n >= 1 plies returns
total move count moveNumOfPly n, which is the ceiling of n / 2
(characterized by the two-sided bound), and every recorded event's
move number lies between 1 and that total. -/
theorem total_move_count_and_event_range {B M : Type}
    (push : B → M → Except ChessError B) (analyse : B → Except ChessError Int)
    (b0 : B) (moves : List M) (r : GameAnnotationResult)
    (hn : 1 ≤ moves.length)
    (h : (analyze_game push analyse b0 moves).result = .ok r) :
    r.move_num = moveNumOfPly moves.length ∧
    moves.length ≤ 2 * r.move_num ∧ 2 * r.move_num ≤ moves.length + 1 ∧
    ∀ x ∈ r.white_mistakes ++ r.white_blunders ++ r.black_mistakes ++ r.black_blunders,
      1 ≤ x ∧ x ≤ r.move_num := by
  obtain ⟨s, hl, hm, hw1, hw2, hb1, hb2⟩ := analyze_game_ok_inv push analyse b0 moves r h
  have hne : moves ≠ [] := by
    intro hnil
    rw [hnil] at hn
    simp at hn
  have hinit : (1 : Nat) ≤ (initState b0).combined_move_num := by
    simp [initState]
  obtain ⟨hc, he, hmn⟩ := analyzeLoop_events_inv push analyse moves (initState b0) s hinit hl
  have harith : (initState b0).combined_move_num + moves.length - 1 = moves.length := by
    simp [initState]
  rw [harith] at he hmn
  have hmv : r.move_num = moveNumOfPly moves.length := by
    have h3 := hmn hne
    rw [hm] at h3
    injection h3 with h3
  refine ⟨hmv, ?_, ?_, ?_⟩
  · rw [hmv]
    unfold moveNumOfPly
    omega
  · rw [hmv]
    unfold moveNumOfPly
    omega
  · intro x hx
    rw [hw1, hw2, hb1, hb2] at hx
    have hx2 : x ∈ allEvents s := hx
    rcases he x hx2 with hx3 | hx3
    · simp [allEvents, initState] at hx3
    · rw [hmv]
      exact hx3

/-- Witness for C10 on the concrete 5-ply scenario. -/
theorem total_move_count_witness :
    (⟨[], [2], [3], [], 3⟩ : GameAnnotationResult).move_num =
      moveNumOfPly ([(), (), (), (), ()] : List Unit).length ∧
    ([(), (), (), (), ()] : List Unit).length ≤
      2 * (⟨[], [2], [3], [], 3⟩ : GameAnnotationResult).move_num ∧
    2 * (⟨[], [2], [3], [], 3⟩ : GameAnnotationResult).move_num ≤
      ([(), (), (), (), ()] : List Unit).length + 1 ∧
    ∀ x ∈ (⟨[], [2], [3], [], 3⟩ : GameAnnotationResult).white_mistakes ++
        (⟨[], [2], [3], [], 3⟩ : GameAnnotationResult).white_blunders ++
        (⟨[], [2], [3], [], 3⟩ : GameAnnotationResult).black_mistakes ++
        (⟨[], [2], [3], [], 3⟩ : GameAnnotationResult).black_blunders,
      1 ≤ x ∧ x ≤ (⟨[], [2], [3], [], 3⟩ : GameAnnotationResult).move_num :=
  total_move_count_and_event_range countPush scenarioAnalyse 0
    [(), (), (), (), ()] ⟨[], [2], [3], [], 3⟩ (by norm_num) rfl

end ChessBlunder
